import Mathlib

/-!
# gmm: graphics memory mapper

A shallow embedding of the two parts of the repository:

* `src/kernel/gmm.c`: the `GMM_GETFD` control operation (`gmm_ioctl`, `gmm_getfd`,
  `gmm_match_fd`), which turns the start address of a memory mapping of the calling
  process into the lowest descriptor number under which the backing file is open;
* `src/libgmm.h`: the userspace channel (`gmm_sendimg`, `gmm_recvimg`, `gmm_connect`,
  `gmm_poll`, `gmm_close`, `gmm_listen`).

System calls and user-memory copies are inputs of the model: every function takes the
outcome the environment produced and the model computes what the C code does with it.
C `int` values are `Int`; conversions from unsigned types to `int` are explicit.
-/

set_option autoImplicit false

namespace Gmm

/-! ## errno values and socket constants (Linux, asm-generic) -/

def ENOENT : Int := 2
def EINTR : Int := 4
def EIO : Int := 5
def EAGAIN : Int := 11
def ENOMEM : Int := 12
def EFAULT : Int := 14
def EINVAL : Int := 22
def ECONNRESET : Int := 104

def SOL_SOCKET : Int := 1
def SCM_RIGHTS : Int := 1
def MSG_CTRUNC : Nat := 8

/-- Conversion of an unsigned value to a C `int` (32 bits, two's complement), as done by
the assignments `fd = n` and `rc = copy_from_user(...)`. -/
def toInt32 (x : Nat) : Int :=
  if x % 2 ^ 32 < 2 ^ 31 then ((x % 2 ^ 32 : Nat) : Int) else ((x % 2 ^ 32 : Nat) : Int) - 2 ^ 32

namespace Kernel

/-! ## src/kernel/gmm.h, src/kernel/gmm.c -/

/-- Identity of a `struct file` object; a `struct file *` is an `Option File`, `none`
being `NULL`. -/
abbrev File := Nat

/-- The request of `GMM_GETFD`: `struct gmm_getfd_req`. -/
structure gmm_getfd_req where
  addr : Nat
  fd : Int
  deriving DecidableEq, Repr

/-- Size of `struct gmm_getfd_req` (LP64: `unsigned long` + `int` + tail padding). -/
def sizeof_req : Nat := 16

/-- `_IOWR('a', 'e', struct gmm_getfd_req *)`: direction read+write = 3 in bits 30..31, size of
a pointer (8) in bits 16..29, type `'a'` = 0x61 in bits 8..15, number `'e'` = 0x65 in bits 0..7. -/
def GMM_GETFD : Nat := 3 * 2 ^ 30 + 8 * 2 ^ 16 + 0x61 * 2 ^ 8 + 0x65

/-- The fields of `struct vm_area_struct` read by `gmm_getfd`. -/
structure vm_area_struct where
  vm_start : Nat
  vm_file : Option File
  deriving DecidableEq, Repr

/-- The part of `current` that `gmm_getfd` reads: `current->files` (`none` is `NULL`; otherwise
the array `fdt->fd[0 .. max_fds)`, `max_fds` being the length of the list) and the list
`current->mm->mmap` in `vm_next` order. -/
structure task_struct where
  files : Option (List (Option File))
  mmap : List vm_area_struct
  deriving Repr

/-- The user side of one call: the request object `arg` points to, and what the two copy
primitives return (the number of bytes they could not copy, 0 on success). -/
structure UserArg where
  req : gmm_getfd_req
  from_left : Nat
  to_left : Nat
  deriving Repr

/-- Outcome of the control operation: the value returned, and the request object in user
memory after the call (`none`: partly written by a failed `copy_to_user`). -/
structure GetfdResult where
  rc : Int
  arg : Option gmm_getfd_req
  deriving DecidableEq, Repr

/-- The loop of `gmm_match_fd`, from slot `n` on: `fds` is `fdt->fd[n .. max_fds)`. -/
def gmm_match_fd_from (file : Option File) : List (Option File) → Nat → Int
  | [], _ => -1
  | ptr :: rest, n => if ptr = file then toInt32 n else gmm_match_fd_from file rest (n + 1)

/-- Function `gmm_match_fd` of `gmm.c`: scan from slot 0 upwards, stop at the first slot
whose entry is `file`. -/
def gmm_match_fd (files : List (Option File)) (file : Option File) : Int :=
  gmm_match_fd_from file files 0

/-- The loop over `current->mm->mmap` in `gmm_getfd`: `file` stays `NULL` unless a mapping
starts at `addr`; the first such mapping decides, and the loop breaks. -/
def find_file (addr : Nat) : List vm_area_struct → Option File
  | [] => none
  | vma :: next => if vma.vm_start = addr then vma.vm_file else find_file addr next

/-- Function `gmm_getfd` of `gmm.c`. -/
def gmm_getfd (cur : task_struct) (u : UserArg) : GetfdResult :=
  match cur.files with
  | none => ⟨-EFAULT, some u.req⟩
  | some files =>
    let rc := toInt32 u.from_left
    if rc ≠ 0 then ⟨rc, some u.req⟩
    else
      match find_file u.req.addr cur.mmap with
      | none => ⟨-ENOENT, some u.req⟩
      | some f =>
        let req : gmm_getfd_req := ⟨u.req.addr, gmm_match_fd files (some f)⟩
        let rc := toInt32 u.to_left
        ⟨rc, if u.to_left = 0 then some req else none⟩

/-- Function `gmm_ioctl` of `gmm.c`. -/
def gmm_ioctl (cur : task_struct) (cmd : Nat) (u : UserArg) : GetfdResult :=
  if cmd = GMM_GETFD then gmm_getfd cur u else ⟨-EINVAL, some u.req⟩

end Kernel

namespace Lib

/-! ## src/libgmm.h -/

/-- Timeout of the bounded wait, in milliseconds. -/
def GMM_SOCKET_TIMEOUT : Nat := 32

def GMM_COLOR_R8G8B8 : Nat := 0
def GMM_COLOR_B8G8R8A8_SRGB : Nat := 1

/-- The type `struct gmm_image`: `format` and `stride` are `uint32_t`, the others `uint16_t`. -/
structure gmm_image where
  format : Nat
  width : Nat
  height : Nat
  stride : Nat
  xpos : Nat
  ypos : Nat
  deriving DecidableEq, Repr

/-- Every field is a value of its C type. -/
def gmm_image.wf (i : gmm_image) : Prop :=
  i.format < 2 ^ 32 ∧ i.width < 2 ^ 16 ∧ i.height < 2 ^ 16 ∧ i.stride < 2 ^ 32 ∧
    i.xpos < 2 ^ 16 ∧ i.ypos < 2 ^ 16

instance (i : gmm_image) : Decidable i.wf := by
  unfold gmm_image.wf; infer_instance

/-- The `w` bytes of an unsigned field, least significant first (sender and receiver are
processes of one host, so both sides use the same byte order). -/
def le_bytes : Nat → Nat → List Nat
  | 0, _ => []
  | w + 1, x => x % 256 :: le_bytes w (x / 256)

/-- The unsigned value stored in a run of bytes, least significant first. -/
def le_value : List Nat → Nat
  | [] => 0
  | b :: bs => b + 256 * le_value bs

/-- The object representation of a `struct gmm_image`: 16 bytes, fields at offsets
0, 4, 6, 8, 12, 14, no padding. -/
def image_bytes (i : gmm_image) : List Nat :=
  le_bytes 4 i.format ++ le_bytes 2 i.width ++ le_bytes 2 i.height ++ le_bytes 4 i.stride ++
    le_bytes 2 i.xpos ++ le_bytes 2 i.ypos

/-- The `struct gmm_image` read back from its 16 bytes. -/
def image_of_bytes (bs : List Nat) : gmm_image :=
  { format := le_value (bs.take 4)
    width := le_value ((bs.drop 4).take 2)
    height := le_value ((bs.drop 6).take 2)
    stride := le_value ((bs.drop 8).take 4)
    xpos := le_value ((bs.drop 12).take 2)
    ypos := le_value ((bs.drop 14).take 2) }

/-- Value of `sizeof(struct gmm_image)`. -/
def sizeof_image : Nat := 16

/-- Value of `sizeof(struct cmsghdr)` (LP64: `size_t` + `int` + `int`). -/
def sizeof_cmsghdr : Nat := 16

/-- `CMSG_ALIGN(len)`: round up to a multiple of `sizeof(size_t)` = 8. -/
def CMSG_ALIGN (len : Nat) : Nat := (len + 7) / 8 * 8

/-- `CMSG_LEN(len)`. -/
def CMSG_LEN (len : Nat) : Nat := CMSG_ALIGN sizeof_cmsghdr + len

/-- `CMSG_SPACE(len)`. -/
def CMSG_SPACE (len : Nat) : Nat := CMSG_ALIGN len + CMSG_ALIGN sizeof_cmsghdr

/-- The control buffer `buf` of `CMSG_SPACE(sizeof(int))` bytes, seen as one `struct cmsghdr`
followed by the `int` at `CMSG_DATA`. -/
structure cmsghdr where
  cmsg_len : Nat
  cmsg_level : Int
  cmsg_type : Int
  data : Int
  deriving DecidableEq, Repr

/-- The parts of `struct msghdr` the library sets: the bytes of the single `iovec`, the
control buffer and its length, the flags. -/
structure msghdr where
  iov : List Nat
  control : cmsghdr
  msg_controllen : Nat
  msg_flags : Nat
  deriving DecidableEq, Repr

/-- `CMSG_FIRSTHDR(&msg)`: `NULL` when the control data is shorter than a header. -/
def CMSG_FIRSTHDR (controllen : Nat) (control : cmsghdr) : Option cmsghdr :=
  if controllen ≥ sizeof_cmsghdr then some control else none

/-- What a system call left behind: its return value, and `errno` after it (`errno` is set
to 0 right before each of these calls, so 0 means the call did not touch it). -/
structure SysOut where
  ret : Int
  errno : Int
  deriving DecidableEq, Repr

/-- Outcome of `gmm_sendimg`: return value, `errno`, and the message handed to `sendmsg`
(`none` when `sendmsg` is not called). -/
structure SendResult where
  ret : Int
  errno : Int
  sent : Option msghdr
  deriving DecidableEq, Repr

/-- The message `gmm_sendimg` builds before it calls `sendmsg`. -/
def sendimg_msg (img : gmm_image) (fd : Int) : msghdr :=
  { iov := (image_bytes img).take sizeof_image
    control := ⟨CMSG_LEN 4, SOL_SOCKET, SCM_RIGHTS, fd⟩
    msg_controllen := CMSG_SPACE 4
    msg_flags := 0 }

/-- Function `gmm_sendimg` of `libgmm.h`; `img = none` is a `NULL` pointer, `sendmsg` gives the outcome of the `sendmsg` call on the message built. -/
def gmm_sendimg (sd : Int) (img : Option gmm_image) (fd : Int) (sendmsg : Int → msghdr → SysOut) :
    SendResult :=
  match img with
  | none => ⟨-1, EINVAL, none⟩
  | some i =>
    if sd < 0 ∨ fd < 0 then ⟨-1, EINVAL, none⟩
    else
      let msg := sendimg_msg i fd
      let o := sendmsg sd msg
      if o.ret < 0 then ⟨-1, o.errno, some msg⟩ else ⟨0, o.errno, some msg⟩

/-- What one `recvmsg` call did: return value, `errno` after it, the bytes it stored through
`msg_iov`, and the `msg_flags`, `msg_controllen` and control buffer it left in `msg`. -/
structure RecvOutcome where
  ret : Int
  errno : Int
  iov : List Nat
  msg_flags : Nat
  msg_controllen : Nat
  control : cmsghdr
  deriving DecidableEq, Repr

/-- Outcome of `gmm_recvimg`: return value, `errno`, and the object `img` points to after
the call. -/
structure RecvResult where
  ret : Int
  errno : Int
  img : Option gmm_image
  deriving DecidableEq, Repr

/-- Memory of `n` bytes holding `old` after `new` was stored at its start. -/
def store (n : Nat) (old new : List Nat) : List Nat :=
  (new.take n ++ old.drop (new.take n).length).take n

/-- Function `gmm_recvimg` of `libgmm.h`; `img = none` is a `NULL` pointer, `recvmsg` gives the
outcome of the `recvmsg` call on descriptor `sd`. -/
def gmm_recvimg (sd : Int) (img : Option gmm_image) (recvmsg : Int → RecvOutcome) : RecvResult :=
  match img with
  | none => ⟨-1, EINVAL, none⟩
  | some i =>
    if sd < 0 then ⟨-1, EINVAL, some i⟩
    else
      let o := recvmsg sd
      let mem := some (image_of_bytes (store sizeof_image (image_bytes i) o.iov))
      if o.ret < 0 then ⟨-1, o.errno, mem⟩
      else if o.errno ≠ 0 then ⟨-1, o.errno, mem⟩
      else if o.ret = 0 then ⟨-1, ECONNRESET, mem⟩
      else if o.msg_flags &&& MSG_CTRUNC ≠ 0 then ⟨-1, EIO, mem⟩
      else
        match CMSG_FIRSTHDR o.msg_controllen o.control with
        | none => ⟨-1, EIO, mem⟩
        | some cmsg =>
          if cmsg.cmsg_level ≠ SOL_SOCKET ∨ cmsg.cmsg_type ≠ SCM_RIGHTS then ⟨-1, EIO, mem⟩
          else ⟨cmsg.data, o.errno, mem⟩

/-- The transport delivering a message whole: every byte of the payload arrives, no flag is
set, and the control block arrives with the descriptor number replaced by `rfd`, the
descriptor under which the receiving process now holds the passed file. -/
def deliver (m : msghdr) (rfd : Int) : RecvOutcome :=
  { ret := m.iov.length
    errno := 0
    iov := m.iov
    msg_flags := 0
    msg_controllen := m.msg_controllen
    control := { m.control with data := rfd } }

/-- What one `poll` call did: return value, `errno` after it, and `pfd.revents` (a `short`,
as its 16-bit pattern). -/
structure PollOutcome where
  ret : Int
  errno : Int
  revents : Nat
  deriving DecidableEq, Repr

/-- Outcome of `gmm_poll`: the value returned, `errno`, and the number of `poll` calls made. -/
structure PollResult where
  ret : Nat
  errno : Int
  waits : Nat
  deriving DecidableEq, Repr

/-- Function `gmm_poll` of `libgmm.h`. The list holds, for each successive `poll` call, its
outcome as a function of the descriptor, the event mask and the timeout; the result is
`none` when the list runs out before the function returns. -/
def gmm_poll (fd : Int) (flags : Nat) : List (Int → Nat → Nat → PollOutcome) → Option PollResult
  | [] => none
  | w :: ws =>
    let o := w fd flags GMM_SOCKET_TIMEOUT
    if o.errno ≠ 0 then some ⟨0, o.errno, 1⟩
    else if o.ret = 0 then some ⟨0, EAGAIN, 1⟩
    else if o.ret < 0 then
      if o.errno = EINTR then
        (gmm_poll fd flags ws).map fun r => { r with waits := r.waits + 1 }
      else some ⟨0, o.errno, 1⟩
    else if o.revents &&& flags ≠ 0 then some ⟨1, o.errno, 1⟩
    else some ⟨0, o.errno, 1⟩

/-- The process state the channel functions act on: the open descriptors, whether the path
`GMM_SOCKET` exists, whether the process is allowed to remove it, and the arguments of the
`close` calls made so far, oldest first. `errno` is not tracked here. -/
structure World where
  fds : List Int
  path : Bool
  removable : Bool
  closed : List Int
  deriving DecidableEq, Repr

/-- The call `close(fd)`. -/
def World.close (w : World) (fd : Int) : World :=
  { w with fds := w.fds.filter (fun x => x ≠ fd), closed := w.closed ++ [fd] }

/-- The call `unlink(GMM_SOCKET)`. -/
def World.unlink (w : World) : World :=
  { w with path := w.path && !w.removable }

/-- Function `gmm_close` of `libgmm.h`; `sd = none` is a `NULL` pointer, `some v` a pointer to
an `int` holding `v`. Returns the handle after the call and the new state. -/
def gmm_close (sd : Option Int) (w : World) : Option Int × World :=
  match sd with
  | some v =>
    if v ≥ 0 then (some (-1), (w.close v).unlink) else (some v, w.unlink)
  | none => (none, w.unlink)

/-- Function `gmm_connect` of `libgmm.h`; `sock` and `conn` are the values returned by
`socket` and `connect`. -/
def gmm_connect (sock conn : Int) (w : World) : Int × World :=
  if sock < 0 then (-1, w)
  else
    let w1 := { w with fds := sock :: w.fds }
    if conn < 0 then (-1, w1.close sock) else (sock, w1)

/-- Function `gmm_listen` of `libgmm.h`; `sock`, `bnd` and `lst` are the values returned by
`socket`, `bind` and `listen`. A successful `bind` creates the path. -/
def gmm_listen (sock bnd lst : Int) (w : World) : Int × World :=
  let w0 := w.unlink
  if sock < 0 then (-1, w0)
  else
    let w1 := { w0 with fds := sock :: w0.fds }
    if bnd < 0 then (-1, (gmm_close (some sock) w1).2)
    else
      let w2 := { w1 with path := true }
      if lst < 0 then (-1, (gmm_close (some sock) w2).2) else (sock, w2)

/-- The error codes with which `poll(2)` fails on Linux. -/
def poll_errors : List Int := [EFAULT, EINTR, EINVAL, ENOMEM]

/-- The outcome classes of a receive, as the specification names them. -/
inductive RecvClass where
  | ReceiveFailed (errno : Int)
  | ConnectionReset
  | ProtocolError
  | Received (fd : Int)
  deriving DecidableEq, Repr

/-- The return value that stands for an outcome class. -/
def RecvClass.ret : RecvClass → Int
  | .Received fd => fd
  | _ => -1

/-- The `errno` value that stands for an outcome class. -/
def RecvClass.errno : RecvClass → Int
  | .ReceiveFailed e => e
  | .ConnectionReset => ECONNRESET
  | .ProtocolError => EIO
  | .Received _ => 0

/-- Steps (3) to (6) of the receive policy: truncated control data, no control block, a
control block of the wrong kind, and otherwise the descriptor of the first control block. -/
def recv_policy_control (o : RecvOutcome) : RecvClass :=
  if o.msg_flags &&& MSG_CTRUNC ≠ 0 then .ProtocolError
  else
    match CMSG_FIRSTHDR o.msg_controllen o.control with
    | none => .ProtocolError
    | some cmsg =>
      if cmsg.cmsg_level ≠ SOL_SOCKET ∨ cmsg.cmsg_type ≠ SCM_RIGHTS then .ProtocolError
      else .Received cmsg.data

/-- The receive policy in the words of the specification: (1) a receive that returns less
than 0 is `ReceiveFailed` with the error code of the transport, (2) zero bytes with no
error is `ConnectionReset`, then steps (3) to (6). -/
def recv_policy_spec (o : RecvOutcome) : RecvClass :=
  if o.ret < 0 then .ReceiveFailed o.errno
  else if o.ret = 0 ∧ o.errno = 0 then .ConnectionReset
  else recv_policy_control o

/-- The receive policy with the guard of `gmm_recvimg` on `errno`: a receive that returns
0 or more but leaves `errno` set is `ReceiveFailed` too, before any other step. -/
def recv_policy_guarded (o : RecvOutcome) : RecvClass :=
  if o.ret < 0 then .ReceiveFailed o.errno
  else if o.errno ≠ 0 then .ReceiveFailed o.errno
  else if o.ret = 0 then .ConnectionReset
  else recv_policy_control o

end Lib

/-! ## The control operation -/

namespace Kernel

theorem toInt32_of_lt {x : Nat} (h : x < 2 ^ 31) : toInt32 x = (x : Int) := by
  unfold toInt32
  have hx : x % 2 ^ 32 = x := Nat.mod_eq_of_lt (by omega)
  rw [hx, if_pos h]

theorem toInt32_nonneg_of_le {x : Nat} (h : x ≤ sizeof_req) : 0 ≤ toInt32 x := by
  have hx : x < 2 ^ 31 := by unfold sizeof_req at h; omega
  rw [toInt32_of_lt hx]
  exact Int.ofNat_nonneg x

theorem toInt32_pos_of_le {x : Nat} (h0 : x ≠ 0) (h : x ≤ sizeof_req) : 0 < toInt32 x := by
  have hx : x < 2 ^ 31 := by unfold sizeof_req at h; omega
  rw [toInt32_of_lt hx]
  omega

/-- The mapping loop returns the backing file of the first mapping that starts at `addr`. -/
theorem find_file_eq_find (addr : Nat) (l : List vm_area_struct) :
    find_file addr l =
      (l.find? (fun v => decide (v.vm_start = addr))).bind (fun v => v.vm_file) := by
  induction l with
  | nil => rfl
  | cons v l ih =>
    by_cases h : v.vm_start = addr
    · simp [find_file, List.find?, h]
    · simp [find_file, List.find?, h, ih]

theorem find_none_iff (addr : Nat) (l : List vm_area_struct) :
    l.find? (fun v => decide (v.vm_start = addr)) = none ↔ ∀ v ∈ l, v.vm_start ≠ addr := by
  simp [List.find?_eq_none]

/-- The descriptor scan from slot `k`: the result is the least matching slot, or -1. -/
theorem gmm_match_fd_from_spec (file : Option File) (l : List (Option File)) (k : Nat)
    (hk : k + l.length ≤ 2 ^ 31) :
    (∃ n : Nat, n < l.length ∧ l[n]? = some file ∧ (∀ m, m < n → l[m]? ≠ some file) ∧
        gmm_match_fd_from file l k = ((k + n : Nat) : Int)) ∨
      ((∀ n : Nat, l[n]? ≠ some file) ∧ gmm_match_fd_from file l k = -1) := by
  induction l generalizing k with
  | nil => right; simp [gmm_match_fd_from]
  | cons p l ih =>
    simp only [List.length_cons] at hk
    by_cases h : p = file
    · left
      refine ⟨0, by simp, by simp [h], by simp, ?_⟩
      simp only [gmm_match_fd_from, h, if_true, Nat.add_zero]
      exact toInt32_of_lt (by omega)
    · rcases ih (k + 1) (by omega) with ⟨n, hn, hget, hmin, hres⟩ | ⟨hno, hres⟩
      · left
        refine ⟨n + 1, by simp [hn], by simpa using hget, ?_, ?_⟩
        · intro m hm
          cases m with
          | zero => simpa using h
          | succ m => simpa using hmin m (by omega)
        · simp only [gmm_match_fd_from, h, if_false]
          rw [hres]
          congr 1
          omega
      · right
        refine ⟨?_, ?_⟩
        · intro n
          cases n with
          | zero => simpa using h
          | succ n => simpa using hno n
        · simp only [gmm_match_fd_from, h, if_false]
          exact hres

theorem toInt32_zero : toInt32 0 = 0 := by decide

/-- C2: with a descriptor table present, the request copied in and a copy-out that leaves at
most the size of the request uncopied, `gmm_getfd` returns `-ENOENT` exactly when no
mapping of the list starts at the requested address, or the first mapping that starts
there has no backing file. -/
theorem getfd_notfound_iff (cur : task_struct) (u : UserArg) (files : List (Option File))
    (hfiles : cur.files = some files) (hin : u.from_left = 0) (hout : u.to_left ≤ sizeof_req) :
    (gmm_getfd cur u).rc = -ENOENT ↔
      ((∀ v ∈ cur.mmap, v.vm_start ≠ u.req.addr) ∨
        ∃ v, cur.mmap.find? (fun v => decide (v.vm_start = u.req.addr)) = some v ∧
          v.vm_file = none) := by
  have hrc : (gmm_getfd cur u).rc = -ENOENT ↔ find_file u.req.addr cur.mmap = none := by
    unfold gmm_getfd
    simp only [hfiles, hin, toInt32_zero, ne_eq, not_true_eq_false, if_false]
    cases hff : find_file u.req.addr cur.mmap with
    | none => simp
    | some f =>
      have h0 := toInt32_nonneg_of_le hout
      simp only [reduceCtorEq, iff_false]
      intro hc
      rw [hc] at h0
      exact absurd h0 (by decide)
  rw [hrc, find_file_eq_find]
  cases hfind : cur.mmap.find? (fun v => decide (v.vm_start = u.req.addr)) with
  | none =>
    simp only [Option.bind, true_iff]
    left
    exact (find_none_iff _ _).1 hfind
  | some v =>
    have hmem := List.mem_of_find?_eq_some hfind
    have hst : v.vm_start = u.req.addr := by
      have := List.find?_some hfind
      simpa using this
    simp only [Option.bind, Option.some.injEq, exists_eq_left']
    constructor
    · intro h
      exact Or.inr h
    · rintro (h | h)
      · exact absurd hst (h v hmem)
      · exact h

theorem getfd_notfound_iff_witness :
    (∀ v ∈ [(⟨4096, none⟩ : vm_area_struct), ⟨8192, some 7⟩], v.vm_start ≠ 12288) ∧
      (gmm_getfd ⟨some [none, some 7], [⟨4096, none⟩, ⟨8192, some 7⟩]⟩ ⟨⟨12288, 0⟩, 0, 0⟩).rc
        = -ENOENT :=
  ⟨by decide,
    (getfd_notfound_iff ⟨some [none, some 7], [⟨4096, none⟩, ⟨8192, some 7⟩]⟩ ⟨⟨12288, 0⟩, 0, 0⟩
      [none, some 7] rfl rfl (by decide)).2 (Or.inl (by decide))⟩

/-- C3: when the first mapping that starts at the requested address is backed by file `F`
and both copies succeed, `gmm_getfd` returns 0 and writes back the request address together
with the least slot index whose entry is `F`, or -1 when no slot refers to `F`; a file open
under one descriptor only resolves to that descriptor, and a file open under exactly two
resolves to the lower one. The table has at most 2^31 slots, so that every slot index is a
value of `int`. -/
theorem getfd_lowest_descriptor (cur : task_struct) (u : UserArg) (files : List (Option File))
    (v : vm_area_struct) (F : File)
    (hfiles : cur.files = some files) (hin : u.from_left = 0) (hout : u.to_left = 0)
    (hmap : cur.mmap.find? (fun v => decide (v.vm_start = u.req.addr)) = some v)
    (hF : v.vm_file = some F) (hmax : files.length ≤ 2 ^ 31) :
    ∃ fd : Int, gmm_getfd cur u = ⟨0, some ⟨u.req.addr, fd⟩⟩ ∧
      ((∃ n : Nat, n < files.length ∧ files[n]? = some (some F) ∧
          (∀ m, m < n → files[m]? ≠ some (some F)) ∧ fd = (n : Int)) ∨
        ((∀ n : Nat, files[n]? ≠ some (some F)) ∧ fd = -1)) ∧
      (∀ d : Nat, files[d]? = some (some F) →
        (∀ m : Nat, files[m]? = some (some F) → m = d) → fd = (d : Int)) ∧
      (∀ d1 d2 : Nat, d1 < d2 → files[d1]? = some (some F) → files[d2]? = some (some F) →
        (∀ m : Nat, files[m]? = some (some F) → m = d1 ∨ m = d2) → fd = (d1 : Int)) := by
  have hff : find_file u.req.addr cur.mmap = some F := by
    rw [find_file_eq_find, hmap]
    simpa using hF
  refine ⟨gmm_match_fd files (some F), ?_, ?_⟩
  · unfold gmm_getfd
    simp [hfiles, hin, hout, toInt32_zero, hff]
  · have hspec := gmm_match_fd_from_spec (some F) files 0 (by omega)
    simp only [Nat.zero_add] at hspec
    have hspec2 : (∃ n : Nat, n < files.length ∧ files[n]? = some (some F) ∧
          (∀ m, m < n → files[m]? ≠ some (some F)) ∧ gmm_match_fd files (some F) = (n : Int)) ∨
        ((∀ n : Nat, files[n]? ≠ some (some F)) ∧ gmm_match_fd files (some F) = -1) := hspec
    refine ⟨hspec2, ?_, ?_⟩
    · intro d hd huniq
      rcases hspec2 with ⟨n, _, hget, _, hres⟩ | ⟨hno, _⟩
      · rw [hres, huniq n hget]
      · exact absurd hd (hno d)
    · intro d1 d2 hlt h1 h2 honly
      rcases hspec2 with ⟨n, _, hget, hmin, hres⟩ | ⟨hno, _⟩
      · rcases honly n hget with h | h
        · rw [hres, h]
        · exact absurd h1 (hmin d1 (by omega))
      · exact absurd h1 (hno d1)

theorem getfd_lowest_descriptor_witness :
    ∃ fd : Int,
      gmm_getfd ⟨some [none, some 9, some 7, some 7], [⟨4096, none⟩, ⟨8192, some 7⟩]⟩
          ⟨⟨8192, 0⟩, 0, 0⟩ = ⟨0, some ⟨8192, fd⟩⟩ ∧ fd = 2 := by
  obtain ⟨fd, heq, _, _, htwo⟩ :=
    getfd_lowest_descriptor ⟨some [none, some 9, some 7, some 7], [⟨4096, none⟩, ⟨8192, some 7⟩]⟩
      ⟨⟨8192, 0⟩, 0, 0⟩ [none, some 9, some 7, some 7] ⟨8192, some 7⟩ 7 rfl rfl rfl
      (by decide) rfl (by decide)
  refine ⟨fd, heq, ?_⟩
  have h := htwo 2 3 (by decide) (by decide) (by decide) (by
    intro m hm
    match m, hm with
    | 0, hm => exact absurd hm (by decide)
    | 1, hm => exact absurd hm (by decide)
    | 2, _ => exact Or.inl rfl
    | 3, _ => exact Or.inr rfl
    | m + 4, hm => simp at hm)
  simpa using h

/-- C9: a failing copy makes `gmm_getfd` return the number of bytes left uncopied, a
positive value: 16 when the request cannot be copied in, 16 when the response cannot be
copied out, both through `gmm_ioctl`. -/
theorem getfd_copy_failure_positive :
    (gmm_ioctl ⟨some [none, some 7], [⟨8192, some 7⟩]⟩ GMM_GETFD ⟨⟨8192, 0⟩, 16, 0⟩).rc = 16 ∧
      (gmm_ioctl ⟨some [none, some 7], [⟨8192, some 7⟩]⟩ GMM_GETFD ⟨⟨8192, 0⟩, 0, 16⟩).rc = 16 := by
  decide

/-- Every failing copy of the request is reported as a positive value by `gmm_getfd`. -/
theorem getfd_failed_copy_in_is_positive (cur : task_struct) (u : UserArg) (files : List (Option File))
    (hfiles : cur.files = some files) (hle : u.from_left ≤ sizeof_req)
    (hfail : u.from_left ≠ 0) : 0 < (gmm_getfd cur u).rc := by
  have hp := toInt32_pos_of_le hfail hle
  unfold gmm_getfd
  simp only [hfiles]
  rw [if_pos (by omega)]
  exact hp

/-- Without a descriptor table `gmm_getfd` returns `-EFAULT`, and `gmm_ioctl` returns
`-EINVAL` for every other command. -/
theorem ioctl_error_codes (cur : task_struct) (u : UserArg) (cmd : Nat) :
    (cur.files = none → (gmm_getfd cur u).rc = -EFAULT) ∧
      (cmd ≠ GMM_GETFD → (gmm_ioctl cur cmd u).rc = -EINVAL) := by
  refine ⟨?_, ?_⟩
  · intro h
    simp [gmm_getfd, h]
  · intro h
    simp [gmm_ioctl, h]

end Kernel

/-! ## The channel: one transfer message -/

namespace Lib

theorem image_bytes_length (i : gmm_image) : (image_bytes i).length = sizeof_image := by
  simp [image_bytes, le_bytes, sizeof_image]

/-- The object representation determines the value: reading back the 16 bytes of a
well-formed image gives the image. -/
theorem image_of_bytes_image_bytes (i : gmm_image) (h : i.wf) :
    image_of_bytes (image_bytes i) = i := by
  obtain ⟨hf, hw, hh, hs, hx, hy⟩ := h
  cases i with
  | mk format width height stride xpos ypos =>
    simp only at hf hw hh hs hx hy
    simp only [image_bytes, le_bytes, image_of_bytes, List.cons_append, List.nil_append,
      List.take, List.drop, le_value, gmm_image.mk.injEq]
    refine ⟨?_, ?_, ?_, ?_, ?_, ?_⟩ <;> omega

theorem store_full (old new : List Nat) (ho : old.length = sizeof_image)
    (hn : new.length = sizeof_image) : store sizeof_image old new = new := by
  unfold store
  have h1 : new.take sizeof_image = new := by
    rw [← hn]; exact List.take_length new
  rw [h1, hn]
  have h2 : old.drop sizeof_image = [] := by
    rw [← ho]; exact List.drop_length old
  rw [h2, List.append_nil, h1]

theorem sendimg_msg_iov (i : gmm_image) (fd : Int) :
    (sendimg_msg i fd).iov = image_bytes i := by
  unfold sendimg_msg
  simp only
  rw [← image_bytes_length i]
  exact List.take_length _

/-- C1: for a well-formed image `V`, a descriptor `f` and channels `sd`, `sd2` that are not
negative, `gmm_sendimg` hands `sendmsg` one message whose payload is the 16 bytes of `V`
and whose control data is exactly one block of level `SOL_SOCKET` and type `SCM_RIGHTS`
carrying `f`; when that message is delivered whole, with `rfd` the descriptor of the passed
file in the receiver, `gmm_recvimg` returns `rfd`, leaves `errno` at 0 and leaves an image
equal to `V`, whatever the image object held before. -/
theorem sendimg_recvimg_roundtrip (V img0 : gmm_image) (f sd sd2 rfd : Int)
    (sendmsg : Int → msghdr → SysOut) (hV : V.wf) (hf : 0 ≤ f) (hsd : 0 ≤ sd)
    (hsd2 : 0 ≤ sd2) :
    ∃ m : msghdr, (gmm_sendimg sd (some V) f sendmsg).sent = some m ∧
      m.iov = image_bytes V ∧ m.iov.length = 16 ∧
      CMSG_FIRSTHDR m.msg_controllen m.control = some ⟨CMSG_LEN 4, SOL_SOCKET, SCM_RIGHTS, f⟩ ∧
      m.msg_controllen < CMSG_ALIGN m.control.cmsg_len + sizeof_cmsghdr ∧
      (deliver m rfd).control.data = rfd ∧
      gmm_recvimg sd2 (some img0) (fun _ => deliver m rfd) = ⟨rfd, 0, some V⟩ := by
  refine ⟨sendimg_msg V f, ?_, sendimg_msg_iov V f, ?_, ?_, ?_, rfl, ?_⟩
  · unfold gmm_sendimg
    simp only
    rw [if_neg (by omega)]
    split <;> rfl
  · rw [sendimg_msg_iov, image_bytes_length]
    rfl
  · simp [sendimg_msg, CMSG_FIRSTHDR, CMSG_SPACE, CMSG_ALIGN, sizeof_cmsghdr]
  · simp [sendimg_msg, CMSG_LEN, CMSG_SPACE, CMSG_ALIGN, sizeof_cmsghdr]
  · have hstore : store sizeof_image (image_bytes img0) (deliver (sendimg_msg V f) rfd).iov
        = image_bytes V := by
      have hiov : (deliver (sendimg_msg V f) rfd).iov = image_bytes V := sendimg_msg_iov V f
      rw [hiov]
      exact store_full _ _ (image_bytes_length img0) (image_bytes_length V)
    have hret : (deliver (sendimg_msg V f) rfd).ret = 16 := by
      show (((sendimg_msg V f).iov.length : Nat) : Int) = 16
      rw [sendimg_msg_iov, image_bytes_length]
      rfl
    unfold gmm_recvimg
    simp only
    rw [if_neg (by omega), hstore, image_of_bytes_image_bytes V hV, hret]
    simp [deliver, sendimg_msg, CMSG_FIRSTHDR, CMSG_SPACE, CMSG_ALIGN, sizeof_cmsghdr,
      MSG_CTRUNC, SOL_SOCKET, SCM_RIGHTS]

theorem sendimg_recvimg_roundtrip_witness :
    (⟨GMM_COLOR_R8G8B8, 640, 480, 1920, 0, 0⟩ : gmm_image).wf ∧ (0 : Int) ≤ 5 ∧ (0 : Int) ≤ 3 ∧
      (0 : Int) ≤ 4 ∧
      ∃ m : msghdr,
        (gmm_sendimg 3 (some ⟨GMM_COLOR_R8G8B8, 640, 480, 1920, 0, 0⟩) 5
            (fun _ _ => ⟨16, 0⟩)).sent = some m ∧
          m.iov = image_bytes ⟨GMM_COLOR_R8G8B8, 640, 480, 1920, 0, 0⟩ ∧ m.iov.length = 16 ∧
          CMSG_FIRSTHDR m.msg_controllen m.control
            = some ⟨CMSG_LEN 4, SOL_SOCKET, SCM_RIGHTS, 5⟩ ∧
          m.msg_controllen < CMSG_ALIGN m.control.cmsg_len + sizeof_cmsghdr ∧
          (deliver m 7).control.data = 7 ∧
          gmm_recvimg 4 (some ⟨1, 2, 3, 4, 5, 6⟩) (fun _ => deliver m 7)
            = ⟨7, 0, some ⟨GMM_COLOR_R8G8B8, 640, 480, 1920, 0, 0⟩⟩ :=
  ⟨by decide, by decide, by decide, by decide,
    sendimg_recvimg_roundtrip ⟨GMM_COLOR_R8G8B8, 640, 480, 1920, 0, 0⟩ ⟨1, 2, 3, 4, 5, 6⟩ 5 3 4 7
      (fun _ _ => ⟨16, 0⟩) (by decide) (by decide) (by decide) (by decide)⟩

/-! ## The channel: classification of a receive -/

/-- C4, as stated, fails: a receive that returns 16 bytes with a conforming control block
carrying descriptor 5, but leaves `errno` at `EINTR`, is a success returning 5 under the
policy of the specification, while `gmm_recvimg` returns -1 and keeps `errno`. -/
theorem recvimg_policy_counterexample :
    recv_policy_spec ⟨16, EINTR, [], 0, 24, ⟨20, SOL_SOCKET, SCM_RIGHTS, 5⟩⟩ = .Received 5 ∧
      (gmm_recvimg 3 (some ⟨0, 0, 0, 0, 0, 0⟩)
        (fun _ => ⟨16, EINTR, [], 0, 24, ⟨20, SOL_SOCKET, SCM_RIGHTS, 5⟩⟩)).ret = -1 ∧
      (gmm_recvimg 3 (some ⟨0, 0, 0, 0, 0, 0⟩)
        (fun _ => ⟨16, EINTR, [], 0, 24, ⟨20, SOL_SOCKET, SCM_RIGHTS, 5⟩⟩)).errno = EINTR ∧
      (gmm_recvimg 3 (some ⟨0, 0, 0, 0, 0, 0⟩)
        (fun _ => ⟨16, EINTR, [], 0, 24, ⟨20, SOL_SOCKET, SCM_RIGHTS, 5⟩⟩)).ret ≠
        (recv_policy_spec ⟨16, EINTR, [], 0, 24, ⟨20, SOL_SOCKET, SCM_RIGHTS, 5⟩⟩).ret := by
  decide

/-- The two policies agree on every outcome in which the receive fails or leaves `errno`
at 0. -/
theorem recv_policy_guarded_eq_spec (o : RecvOutcome) (h : o.ret < 0 ∨ o.errno = 0) :
    recv_policy_guarded o = recv_policy_spec o := by
  unfold recv_policy_guarded recv_policy_spec
  by_cases h1 : o.ret < 0
  · simp [h1]
  · have h2 : o.errno = 0 := by
      rcases h with h | h
      · exact absurd h h1
      · exact h
    simp [h1, h2]

/-- C4, amended: for a channel that is not negative, a non-null image and every outcome of
the receive, the return value and `errno` of `gmm_recvimg` are those of the ordered policy
with the `errno` guard: (1) return value below 0, `ReceiveFailed`; (1b) `errno` left set,
`ReceiveFailed`; (2) zero bytes, `ConnectionReset`; (3) truncated control data, (4) no
control block, (5) a control block of another kind, `ProtocolError`; (6) the descriptor of
the first control block. `ProtocolError` is the class in no other case, and the policy is
the one of the specification on every outcome in which the receive fails or leaves `errno`
at 0. -/
theorem recvimg_policy_guarded (sd : Int) (img : gmm_image) (recvmsg : Int → RecvOutcome)
    (hsd : 0 ≤ sd) :
    (gmm_recvimg sd (some img) recvmsg).ret = (recv_policy_guarded (recvmsg sd)).ret ∧
      (gmm_recvimg sd (some img) recvmsg).errno = (recv_policy_guarded (recvmsg sd)).errno ∧
      (recv_policy_guarded (recvmsg sd) = .ProtocolError ↔
        0 < (recvmsg sd).ret ∧ (recvmsg sd).errno = 0 ∧
          ((recvmsg sd).msg_flags &&& MSG_CTRUNC ≠ 0 ∨
            CMSG_FIRSTHDR (recvmsg sd).msg_controllen (recvmsg sd).control = none ∨
            ∃ c, CMSG_FIRSTHDR (recvmsg sd).msg_controllen (recvmsg sd).control = some c ∧
              (c.cmsg_level ≠ SOL_SOCKET ∨ c.cmsg_type ≠ SCM_RIGHTS))) ∧
      ((recvmsg sd).ret < 0 ∨ (recvmsg sd).errno = 0 →
        recv_policy_guarded (recvmsg sd) = recv_policy_spec (recvmsg sd)) := by
  have h3 : (gmm_recvimg sd (some img) recvmsg).ret = (recv_policy_guarded (recvmsg sd)).ret ∧
      (gmm_recvimg sd (some img) recvmsg).errno = (recv_policy_guarded (recvmsg sd)).errno ∧
      (recv_policy_guarded (recvmsg sd) = .ProtocolError ↔
        0 < (recvmsg sd).ret ∧ (recvmsg sd).errno = 0 ∧
          ((recvmsg sd).msg_flags &&& MSG_CTRUNC ≠ 0 ∨
            CMSG_FIRSTHDR (recvmsg sd).msg_controllen (recvmsg sd).control = none ∨
            ∃ c, CMSG_FIRSTHDR (recvmsg sd).msg_controllen (recvmsg sd).control = some c ∧
              (c.cmsg_level ≠ SOL_SOCKET ∨ c.cmsg_type ≠ SCM_RIGHTS))) := by
    unfold gmm_recvimg recv_policy_guarded recv_policy_control
    simp only
    rw [if_neg (by omega)]
    generalize recvmsg sd = o
    by_cases h1 : o.ret < 0
    · simp only [h1, if_true, RecvClass.ret, RecvClass.errno, reduceCtorEq, false_iff, not_and,
        true_and]
      intro h
      omega
    · simp only [h1, if_false]
      by_cases h2 : o.errno = 0
      · simp only [h2, ne_eq, not_true_eq_false, if_false, true_and]
        by_cases h3 : o.ret = 0
        · simp only [h3, if_true, RecvClass.ret, RecvClass.errno, reduceCtorEq, false_iff,
            true_and]
          intro h
          omega
        · have hpos : 0 < o.ret := by omega
          simp only [h3, if_false, hpos, true_and]
          by_cases h4 : o.msg_flags &&& MSG_CTRUNC = 0
          · simp only [h4, not_true_eq_false, if_false, false_or]
            cases hc : CMSG_FIRSTHDR o.msg_controllen o.control with
            | none => simp [RecvClass.ret, RecvClass.errno]
            | some c =>
              by_cases h5 : c.cmsg_level ≠ SOL_SOCKET ∨ c.cmsg_type ≠ SCM_RIGHTS
              · simp only [h5, if_true, RecvClass.ret, RecvClass.errno, reduceCtorEq, false_or,
                  Option.some.injEq, exists_eq_left', true_and]
              · simp only [h5, if_false, RecvClass.ret, RecvClass.errno, reduceCtorEq, false_or,
                  Option.some.injEq, exists_eq_left', true_and]
          · simp [h4, RecvClass.ret, RecvClass.errno]
      · simp only [h2, ne_eq, not_false_eq_true, if_true, RecvClass.ret, RecvClass.errno,
          reduceCtorEq, false_iff, not_and, true_and, false_and, and_false, not_false_eq_true]
  exact ⟨h3.1, h3.2.1, h3.2.2, recv_policy_guarded_eq_spec (recvmsg sd)⟩

theorem recvimg_policy_guarded_witness :
    (0 : Int) ≤ 3 ∧
      (gmm_recvimg 3 (some ⟨0, 0, 0, 0, 0, 0⟩) (fun _ => ⟨0, 0, [], 0, 0, ⟨0, 0, 0, 0⟩⟩)).ret = -1 ∧
      (gmm_recvimg 3 (some ⟨0, 0, 0, 0, 0, 0⟩) (fun _ => ⟨0, 0, [], 0, 0, ⟨0, 0, 0, 0⟩⟩)).errno
        = ECONNRESET :=
  have h := recvimg_policy_guarded 3 ⟨0, 0, 0, 0, 0, 0⟩ (fun _ => ⟨0, 0, [], 0, 0, ⟨0, 0, 0, 0⟩⟩)
    (by decide)
  ⟨by decide, h.1.trans (by decide), h.2.1.trans (by decide)⟩

/-! ## The channel: bounded wait -/

/-- The first wait decides: `gmm_poll` returns after one `poll` call whatever its outcome. -/
theorem gmm_poll_first (fd : Int) (flags : Nat) (w : Int → Nat → Nat → PollOutcome)
    (ws : List (Int → Nat → Nat → PollOutcome)) :
    gmm_poll fd flags (w :: ws) =
      some (if (w fd flags GMM_SOCKET_TIMEOUT).errno ≠ 0 then
          ⟨0, (w fd flags GMM_SOCKET_TIMEOUT).errno, 1⟩
        else if (w fd flags GMM_SOCKET_TIMEOUT).ret = 0 then ⟨0, EAGAIN, 1⟩
        else if 0 < (w fd flags GMM_SOCKET_TIMEOUT).ret ∧
            (w fd flags GMM_SOCKET_TIMEOUT).revents &&& flags ≠ 0 then ⟨1, 0, 1⟩
        else ⟨0, 0, 1⟩) := by
  unfold gmm_poll
  simp only
  generalize w fd flags GMM_SOCKET_TIMEOUT = o
  by_cases h1 : o.errno = 0
  · have hne : ¬ ((0 : Int) = EINTR) := by decide
    simp only [h1, ne_eq, not_true_eq_false, if_false, hne]
    by_cases h2 : o.ret = 0
    · simp [h2]
    · by_cases h3 : o.ret < 0
      · have h4 : ¬ 0 < o.ret := by omega
        simp [h2, h3, h4]
      · have h4 : 0 < o.ret := by omega
        by_cases h5 : o.revents &&& flags = 0
        · simp [h2, h3, h4, h5]
        · simp [h2, h3, h4, h5]
  · simp [h1]

/-- C6: the retry never happens. With the wait interrupted once (`poll` returns -1 with
`EINTR`) and then reporting the descriptor readable, `gmm_poll` returns not-ready with
`errno` left at `EINTR` after a single wait, while on the second outcome alone it returns
ready. -/
theorem poll_interrupt_not_retried :
    gmm_poll 3 1 [fun _ _ _ => ⟨-1, EINTR, 0⟩, fun _ _ _ => ⟨1, 0, 1⟩] = some ⟨0, EINTR, 1⟩ ∧
      gmm_poll 3 1 [fun _ _ _ => ⟨1, 0, 1⟩] = some ⟨1, 0, 1⟩ := by
  decide

/-- Every interrupted wait ends `gmm_poll` at once, with not-ready and `EINTR`. -/
theorem poll_interrupt_returns (fd : Int) (flags : Nat) (w : Int → Nat → Nat → PollOutcome)
    (ws : List (Int → Nat → Nat → PollOutcome))
    (h : (w fd flags GMM_SOCKET_TIMEOUT).errno = EINTR) :
    gmm_poll fd flags (w :: ws) = some ⟨0, EINTR, 1⟩ := by
  rw [gmm_poll_first, h]
  simp [EINTR]

/-- C7: `gmm_poll` returns after the first wait, whose timeout is 32 ms. When that wait
returns 0 and leaves `errno` at 0, the result is not-ready with `errno` = `EAGAIN`; when it fails with one of the error
codes of `poll`, the result is not-ready with that code, which is not `EAGAIN`; `gmm_poll`
leaves `EAGAIN` that the wait did not leave itself only after a timeout; and it returns 1
only when the wait returned a positive count and the returned events meet the mask. -/
theorem poll_timeout_retryable (fd : Int) (flags : Nat) (w : Int → Nat → Nat → PollOutcome)
    (ws : List (Int → Nat → Nat → PollOutcome)) :
    ∃ r : PollResult, gmm_poll fd flags (w :: ws) = some r ∧ GMM_SOCKET_TIMEOUT = 32 ∧
      ((w fd flags GMM_SOCKET_TIMEOUT).ret = 0 → (w fd flags GMM_SOCKET_TIMEOUT).errno = 0 →
        r = ⟨0, EAGAIN, 1⟩) ∧
      ((w fd flags GMM_SOCKET_TIMEOUT).ret < 0 →
        (w fd flags GMM_SOCKET_TIMEOUT).errno ∈ poll_errors →
        r = ⟨0, (w fd flags GMM_SOCKET_TIMEOUT).errno, 1⟩ ∧ r.errno ≠ EAGAIN) ∧
      (r.errno = EAGAIN → (w fd flags GMM_SOCKET_TIMEOUT).errno ≠ EAGAIN →
        (w fd flags GMM_SOCKET_TIMEOUT).ret = 0 ∧ r.ret = 0) ∧
      (r.ret = 1 → 0 < (w fd flags GMM_SOCKET_TIMEOUT).ret ∧
        (w fd flags GMM_SOCKET_TIMEOUT).revents &&& flags ≠ 0 ∧
        (w fd flags GMM_SOCKET_TIMEOUT).errno = 0) := by
  refine ⟨_, gmm_poll_first fd flags w ws, rfl, ?_, ?_, ?_, ?_⟩
  all_goals generalize w fd flags GMM_SOCKET_TIMEOUT = o
  · intro h1 h2
    simp [h1, h2]
  · intro _ hmem
    have hne : o.errno ≠ 0 ∧ o.errno ≠ EAGAIN := by
      simp only [poll_errors, List.mem_cons, List.mem_singleton, List.not_mem_nil, or_false]
        at hmem
      rcases hmem with h | h | h | h <;> rw [h] <;> decide
    simp [hne.1, hne.2]
  · intro hr hne
    by_cases h1 : o.errno = 0
    · by_cases h2 : o.ret = 0
      · simp [h1, h2]
      · exfalso
        simp only [h1, ne_eq, not_true_eq_false, if_false, h2] at hr
        split at hr
        · exact absurd hr (by decide)
        · exact absurd hr (by decide)
    · exfalso
      simp only [ne_eq, h1, not_false_eq_true, if_true] at hr
      exact hne hr
  · intro hr
    by_cases h1 : o.errno = 0
    · by_cases h2 : o.ret = 0
      · simp [h1, h2] at hr
      · simp only [h1, ne_eq, not_true_eq_false, if_false, h2] at hr
        split at hr
        · rename_i h
          exact ⟨h.1, h.2, h1⟩
        · simp at hr
    · simp [h1] at hr

theorem poll_timeout_retryable_witness :
    ∃ r : PollResult, gmm_poll 3 1 [fun _ _ _ => ⟨0, 0, 0⟩] = some r ∧ r = ⟨0, EAGAIN, 1⟩ := by
  obtain ⟨r, hr, _, htime, _⟩ := poll_timeout_retryable 3 1 (fun _ _ _ => ⟨0, 0, 0⟩) []
  exact ⟨r, hr, htime rfl rfl⟩

/-! ## The channel: descriptors and the rendezvous path -/

theorem unlink_unlink (w : World) : w.unlink.unlink = w.unlink := by
  cases w with
  | mk fds path removable closed =>
    cases path <;> cases removable <;> rfl

/-- C5: a second `gmm_close` on the handle the first one left gives the state the first one
gave, and adds no `close` call. When the handle holds a descriptor `v` that is not negative,
the first call makes exactly one `close` call, on `v`, after which `v` is not open, and
sets the handle to -1, where the second call leaves it; a handle that holds a negative
value keeps it and no `close` call is made. -/
theorem close_twice_is_close_once (sd : Option Int) (w : World) :
    gmm_close (gmm_close sd w).1 (gmm_close sd w).2 = gmm_close sd w ∧
      (gmm_close (gmm_close sd w).1 (gmm_close sd w).2).2.closed = (gmm_close sd w).2.closed ∧
      (∀ v : Int, sd = some v → 0 ≤ v →
        (gmm_close sd w).1 = some (-1) ∧ (gmm_close sd w).2.closed = w.closed ++ [v] ∧
          v ∉ (gmm_close sd w).2.fds ∧
          (gmm_close (gmm_close sd w).1 (gmm_close sd w).2).1 = some (-1)) ∧
      (∀ v : Int, sd = some v → v < 0 →
        (gmm_close sd w).1 = some v ∧ (gmm_close sd w).2.closed = w.closed ∧
          (gmm_close sd w).2.fds = w.fds) := by
  have hidem : gmm_close (gmm_close sd w).1 (gmm_close sd w).2 = gmm_close sd w := by
    cases sd with
    | none => simp [gmm_close, unlink_unlink]
    | some v =>
      by_cases hv : 0 ≤ v
      · simp [gmm_close, hv, unlink_unlink]
      · simp [gmm_close, hv, unlink_unlink]
  refine ⟨hidem, by rw [hidem], ?_, ?_⟩
  · intro v hsd hv
    subst hsd
    rw [hidem]
    simp [gmm_close, hv, World.close, World.unlink]
  · intro v hsd hv
    subst hsd
    have hv2 : ¬ 0 ≤ v := by omega
    simp [gmm_close, hv2, World.unlink]

theorem close_twice_is_close_once_witness :
    (gmm_close (some 3) ⟨[3, 4], true, true, []⟩).1 = some (-1) ∧
      (gmm_close (some 3) ⟨[3, 4], true, true, []⟩).2.closed = [] ++ [3] ∧
      (3 : Int) ∉ (gmm_close (some 3) ⟨[3, 4], true, true, []⟩).2.fds ∧
      (gmm_close (gmm_close (some 3) ⟨[3, 4], true, true, []⟩).1
        (gmm_close (some 3) ⟨[3, 4], true, true, []⟩).2).1 = some (-1) :=
  (close_twice_is_close_once (some 3) ⟨[3, 4], true, true, []⟩).2.2.1 3 rfl (by decide)

/-- C8, as stated, fails: with the rendezvous path present and the handle holding -1, or
absent, `gmm_close` removes the path, so the state after the call is not the state before. -/
theorem close_unopened_counterexample :
    (gmm_close (some (-1)) ⟨[3], true, true, []⟩).2.path = false ∧
      (gmm_close none ⟨[3], true, true, []⟩).2.path = false ∧
      (gmm_close (some (-1)) ⟨[3], true, true, []⟩).2 ≠ ⟨[3], true, true, []⟩ := by
  decide

/-- C8, amended: when the handle is absent or holds a negative value, `gmm_close` makes no
`close` call and leaves the handle and the open descriptors as they were; what it does is
the `unlink` of the rendezvous path, which every `gmm_close` call does whatever the handle
is, so that the path exists afterwards only if it existed and could not be removed. -/
theorem close_unopened_only_unlinks (sd : Option Int) (w : World)
    (h : sd = none ∨ ∃ v : Int, sd = some v ∧ v < 0) :
    gmm_close sd w = (sd, w.unlink) ∧ (gmm_close sd w).2.fds = w.fds ∧
      (gmm_close sd w).2.closed = w.closed ∧
      (gmm_close sd w).2.path = (w.path && !w.removable) ∧
      (∀ (sd2 : Option Int) (w2 : World),
        (gmm_close sd2 w2).2.path = (w2.path && !w2.removable)) := by
  have hall : ∀ (sd2 : Option Int) (w2 : World),
      (gmm_close sd2 w2).2.path = (w2.path && !w2.removable) := by
    intro sd2 w2
    cases sd2 with
    | none => rfl
    | some v =>
      by_cases hv : 0 ≤ v
      · simp [gmm_close, hv, World.close, World.unlink]
      · simp [gmm_close, hv, World.unlink]
  have heq : gmm_close sd w = (sd, w.unlink) := by
    rcases h with h | ⟨v, h, hv⟩
    · subst h; rfl
    · subst h
      have hv2 : ¬ 0 ≤ v := by omega
      simp [gmm_close, hv2]
  refine ⟨heq, ?_, ?_, hall sd w, hall⟩
  · rw [heq]; rfl
  · rw [heq]; rfl

theorem close_unopened_only_unlinks_witness :
    ((some (-1) : Option Int) = none ∨ ∃ v : Int, some (-1) = some v ∧ v < 0) ∧
      gmm_close (some (-1)) ⟨[3], true, true, []⟩ = (some (-1), ⟨[3], false, true, []⟩) :=
  ⟨Or.inr ⟨-1, rfl, by decide⟩,
    (close_unopened_only_unlinks (some (-1)) ⟨[3], true, true, []⟩
      (Or.inr ⟨-1, rfl, by decide⟩)).1⟩

/-- C10: with `socket` returning either a failure or a descriptor that was not open,
`gmm_connect` and `gmm_listen` each end in one of three ways, whatever `connect`, `bind`
and `listen` return: the descriptor of the new socket is returned, it is open and no
`close` call was made; or -1 is returned, no socket was created, the open descriptors are
those before the call and no `close` call was made; or -1 is returned, the open descriptors
are those before the call and exactly one `close` call was made, on the socket created. -/
theorem channel_construction_no_leak (sock conn bnd lst : Int) (w : World)
    (hfresh : sock ∉ w.fds) :
    (((gmm_connect sock conn w).1 = sock ∧ 0 ≤ sock ∧ 0 ≤ conn ∧
          (gmm_connect sock conn w).2.fds = sock :: w.fds ∧
          (gmm_connect sock conn w).2.closed = w.closed) ∨
        ((gmm_connect sock conn w).1 = -1 ∧ sock < 0 ∧
          (gmm_connect sock conn w).2.fds = w.fds ∧
          (gmm_connect sock conn w).2.closed = w.closed) ∨
        ((gmm_connect sock conn w).1 = -1 ∧ 0 ≤ sock ∧ conn < 0 ∧
          (gmm_connect sock conn w).2.fds = w.fds ∧
          (gmm_connect sock conn w).2.closed = w.closed ++ [sock])) ∧
      (((gmm_listen sock bnd lst w).1 = sock ∧ 0 ≤ sock ∧ 0 ≤ bnd ∧ 0 ≤ lst ∧
          (gmm_listen sock bnd lst w).2.fds = sock :: w.fds ∧
          (gmm_listen sock bnd lst w).2.closed = w.closed) ∨
        ((gmm_listen sock bnd lst w).1 = -1 ∧ sock < 0 ∧
          (gmm_listen sock bnd lst w).2.fds = w.fds ∧
          (gmm_listen sock bnd lst w).2.closed = w.closed) ∨
        ((gmm_listen sock bnd lst w).1 = -1 ∧ 0 ≤ sock ∧ (bnd < 0 ∨ lst < 0) ∧
          (gmm_listen sock bnd lst w).2.fds = w.fds ∧
          (gmm_listen sock bnd lst w).2.closed = w.closed ++ [sock])) := by
  have hfilter : ∀ a ∈ w.fds, ¬ a = sock := fun a ha hc => hfresh (hc ▸ ha)
  constructor
  · by_cases hs : sock < 0
    · right; left
      simp [gmm_connect, hs]
    · have hs2 : 0 ≤ sock := by omega
      by_cases hc : conn < 0
      · right; right
        simp only [gmm_connect, hs, hc, hs2, World.close, if_false, if_true, true_and, ne_eq,
          List.filter_cons, not_true_eq_false, decide_False, Bool.false_eq_true,
          List.filter_eq_self, decide_not, Bool.not_eq_true', decide_eq_false_iff_not, and_true]
        exact hfilter
      · left
        have hc2 : 0 ≤ conn := by omega
        simp [gmm_connect, hs, hc, hs2, hc2]
  · by_cases hs : sock < 0
    · right; left
      simp [gmm_listen, hs, World.unlink]
    · have hs2 : 0 ≤ sock := by omega
      by_cases hb : bnd < 0
      · right; right
        simp only [gmm_listen, gmm_close, hs, hb, hs2, World.close, World.unlink, if_false,
          if_true, true_and, ne_eq, List.filter_cons, not_true_eq_false, decide_False,
          Bool.false_eq_true, List.filter_eq_self, decide_not, Bool.not_eq_true',
          decide_eq_false_iff_not, and_true, ge_iff_le, true_or]
        exact hfilter
      · have hb2 : 0 ≤ bnd := by omega
        by_cases hl : lst < 0
        · right; right
          simp only [gmm_listen, gmm_close, hs, hb, hl, hs2, World.close, World.unlink, if_false,
            if_true, true_and, ne_eq, List.filter_cons, not_true_eq_false, decide_False,
            Bool.false_eq_true, List.filter_eq_self, decide_not, Bool.not_eq_true',
            decide_eq_false_iff_not, and_true, ge_iff_le, or_true]
          exact hfilter
        · left
          have hl2 : 0 ≤ lst := by omega
          simp [gmm_listen, hs, hb, hl, hs2, hb2, hl2, World.unlink]

theorem channel_construction_no_leak_witness :
    (5 : Int) ∉ [(3 : Int), 4] ∧
      ((gmm_connect 5 (-1) ⟨[3, 4], true, true, []⟩).1 = -1 ∧
        (gmm_connect 5 (-1) ⟨[3, 4], true, true, []⟩).2.fds = [3, 4] ∧
        (gmm_connect 5 (-1) ⟨[3, 4], true, true, []⟩).2.closed = [] ++ [5]) ∧
      ((gmm_listen 5 0 (-1) ⟨[3, 4], true, true, []⟩).1 = -1 ∧
        (gmm_listen 5 0 (-1) ⟨[3, 4], true, true, []⟩).2.fds = [3, 4] ∧
        (gmm_listen 5 0 (-1) ⟨[3, 4], true, true, []⟩).2.closed = [] ++ [5]) := by
  obtain ⟨hc, hl⟩ :=
    channel_construction_no_leak 5 (-1) 0 (-1) ⟨[3, 4], true, true, []⟩ (by decide)
  refine ⟨by decide, ?_, ?_⟩
  · rcases hc with h | h | h
    · exact absurd h.2.2.1 (by decide)
    · exact absurd h.2.1 (by decide)
    · exact ⟨h.1, h.2.2.2.1, h.2.2.2.2⟩
  · rcases hl with h | h | h
    · exact absurd h.2.2.2.1 (by decide)
    · exact absurd h.2.1 (by decide)
    · exact ⟨h.1, h.2.2.2.1, h.2.2.2.2⟩

end Lib

end Gmm
